import Mathlib

/-!
Verification development for the hatch-agent terminal front-end.

The development shallowly embeds the event-stream reducer of
`src/components/App.tsx` (the `handleSubmit` event loop, the `truncate`
helper and the `formatToolDisplay` formatter) and the SDK-forwarding
generator `runHatch` of `src/agent/hatch.ts`.

Modelling conventions:
* JavaScript strings are Lean `String`s; `str.length`, `str.slice(0, n)`
  and `str.split` count and cut UTF-16-style units, modelled as the
  `Char` entries of `String.data`.
* Optional event fields (`text?: string`, ...) are `Option String`.
  JavaScript truthiness of such a field (`if (event.text)`) holds exactly
  when the field is present and non-empty, i.e. when `jsStr field ≠ ""`.
* React `setX(v)` / `setX(prev => f prev)` state updates are modelled as
  updates of the corresponding field of an explicit state record. For
  *reads* two embeddings are given. `applyEvent` is the idealized reducer
  in which a read of a state variable sees the current field value.
  `applyEventJs` is the loop as the source actually executes it:
  `handleSubmit` is a closure over the render-time `streamingText` const,
  which is `""` for the entire loop (the `isProcessing` guard blocks
  submissions mid-exchange and every exchange ends by clearing the
  buffer), so every read of `streamingText` inside the loop sees the
  stale value `""` while the functional `setStreamingText` updates still
  accumulate in the state. The two transitions differ only where
  `streamingText` is read: the `text` case and the flush blocks of the
  `tool_use_start` and `done` cases; they agree on every other case.
-/

/-- JavaScript read of an optional string field: an absent field behaves
like `""` under `String(...)`-free uses in this code (`x || y` picks `y`
when `x` is absent or empty, and truthiness of `x` is `jsStr x ≠ ""`). -/
def jsStr (o : Option String) : String := o.getD ""

/-- The character list of a JS string (its sequence of text units). -/
def strChars (s : String) : List Char := s.data

/-- JS `str.slice(0, n)`: the first `n` units of `str`. -/
def strSlice0 (s : String) (n : Nat) : String := String.mk (s.data.take n)

/-- JS `str.startsWith(p)`. -/
def strStartsWith (s p : String) : Bool := p.data.isPrefixOf s.data

/-- JS `str.toLowerCase()` (ASCII case folding, as used on tool names). -/
def strToLower (s : String) : String := String.mk (s.data.map Char.toLower)

/-- Helper for JS `String.prototype.replace` with a string pattern:
replace the first occurrence of `pat` in `s` (and only it). -/
def listReplaceFirst (pat repl : List Char) : List Char → List Char
  | [] => if pat.isPrefixOf ([] : List Char) then repl else []
  | c :: rest =>
      if pat.isPrefixOf (c :: rest) then repl ++ (c :: rest).drop pat.length
      else c :: listReplaceFirst pat repl rest

/-- JS `s.replace(pat, repl)` with a plain-string `pat`: first occurrence only. -/
def replaceFirst (s pat repl : String) : String :=
  String.mk (listReplaceFirst pat.data repl.data s.data)

/-- JS `path.split(/[/\\]/).pop() || path`: the last `/`- or `\`-separated
component of `path`, falling back to `path` itself when that component is
empty. -/
def jsBasename (path : String) : String :=
  let parts := (path.data.splitOnP (fun c => c == '/' || c == '\\')).map String.mk
  let last := parts.getLastD ""
  if last = "" then path else last

/-- Split a character list at the first occurrence of the pattern `pat`,
returning the part before it and the part after it. -/
def breakOnSub (pat : List Char) : List Char → Option (List Char × List Char)
  | [] => if pat.isPrefixOf ([] : List Char) then some ([], []) else none
  | c :: rest =>
      if pat.isPrefixOf (c :: rest) then some ([], (c :: rest).drop pat.length)
      else match breakOnSub pat rest with
        | some (pre, post) => some (c :: pre, post)
        | none => none

/-- Model of the platform `new URL(url).hostname` used by the `webfetch`
branch (a JS builtin, not repository code): succeeds when the string
contains `"://"`, yielding the authority up to the next `/`, `?`, `#` or
`:`; fails (the constructor throws) otherwise. -/
def urlHostname (url : String) : Option String :=
  match breakOnSub ("://".data) url.data with
  | none => none
  | some (_, rest) =>
      some (String.mk ((rest.takeWhile
        (fun c => !(c == '/' || c == '?' || c == '#'))).takeWhile (fun c => !(c == ':'))))

/-- The fixed truncation marker appended by `truncate`. -/
def truncMarker : String := "\n... (truncated)"

/-- `truncate` from `src/components/App.tsx`:
`if (str.length <= maxLen) return str; return str.slice(0, maxLen) + '\n... (truncated)';` -/
def truncate (str : String) (maxLen : Nat) : String :=
  if str.length ≤ maxLen then str else strSlice0 str maxLen ++ truncMarker

/-- The `{ label, detail }` record returned by `formatToolDisplay`. -/
structure ToolDisplay where
  label : String
  detail : String
deriving DecidableEq, Repr

/-- The fields of the `Record<string, unknown>` tool input that
`formatToolDisplay` reads, with string values (absent field = `none`). -/
structure ToolInput where
  command : Option String := none
  file_path : Option String := none
  path : Option String := none
  pattern : Option String := none
  query : Option String := none
  url : Option String := none
deriving DecidableEq, Repr

/-- JS `String(input.file_path || input.path || '')`. -/
def ToolInput.filePathField (i : ToolInput) : String :=
  if jsStr i.file_path = "" then jsStr i.path else jsStr i.file_path

/-- `formatToolDisplay` from `src/components/App.tsx`: dispatch on the
lower-cased tool name to build a one-line label plus detail. -/
def formatToolDisplay (name : String) (input : ToolInput) : ToolDisplay :=
  let n := strToLower name
  if n = "bash" then
    let cmd := jsStr input.command
    if strStartsWith cmd "python" then ⟨"⚡ Running script", cmd⟩
    else if strStartsWith cmd "pip install" then
      ⟨"📦 Installing package", replaceFirst cmd "pip install " ""⟩
    else ⟨"⚡ Running", cmd⟩
  else if n = "write" then
    ⟨"✏️ Creating file", jsBasename input.filePathField⟩
  else if n = "edit" ∨ n = "multiedit" then
    ⟨"🔧 Editing", jsBasename input.filePathField⟩
  else if n = "read" then
    ⟨"👀 Reading", jsBasename input.filePathField⟩
  else if n = "glob" then
    ⟨"🔍 Finding files", jsStr input.pattern⟩
  else if n = "grep" then
    ⟨"🔍 Searching for", "\"" ++ (match input.pattern with
      | some p => p
      | none => "undefined") ++ "\""⟩
  else if n = "ls" then
    ⟨"📂 Listing folder", if jsStr input.path = "" then "." else jsStr input.path⟩
  else if n = "websearch" then
    ⟨"🌐 Searching web", jsStr input.query⟩
  else if n = "webfetch" then
    match urlHostname (jsStr input.url) with
    | some domain => ⟨"🌐 Loading", domain⟩
    | none => ⟨"🌐 Loading page", jsStr input.url⟩
  else if n = "todowrite" ∨ n = "todoread" then
    ⟨"📝 Organizing tasks", ""⟩
  else if n = "task" then
    ⟨"🤔 Working on subtask", ""⟩
  else
    ⟨"⚙️ " ++ name, ""⟩

/-- The kinds of `DisplayMessage` in `src/components/App.tsx`. -/
inductive MsgType where
  | user
  | assistant
  | tool_use
  | tool_result
  | error
deriving DecidableEq, Repr

/-- A finalized transcript entry (`DisplayMessage` sans the transient
`isStreaming` flag, which the reducer never sets on appended entries). -/
structure DisplayMessage where
  type : MsgType
  content : String
  toolName : Option String := none
deriving DecidableEq, Repr

/-- The `HatchEvent` union of `src/agent/hatch.ts`, with the payload
fields each variant can carry. -/
inductive HatchEvent where
  | init (sessionId : Option String)
  | text_delta (text : Option String)
  | text (text : Option String)
  | tool_use_start (toolName : Option String) (toolId : Option String)
      (toolInput : Option ToolInput)
  | tool_input_delta (toolInputDelta : Option String)
  | tool_result (toolResult : Option String)
  | done (sessionId : Option String)
  | error (error : Option String)
deriving DecidableEq, Repr

/-- The reducer state of `App`: finalized messages, session id, the
in-progress assistant text buffer, the current tool name and the
tool-input buffer. -/
structure AppState where
  messages : List DisplayMessage
  sessionId : Option String
  streamingText : String
  currentTool : Option String
  toolInput : String
deriving DecidableEq, Repr

/-- The state before any event: empty transcript and buffers. -/
def initialState : AppState :=
  { messages := [], sessionId := none, streamingText := "",
    currentTool := none, toolInput := "" }

/-- The repeated `if (streamingText) { push assistant entry; clear }`
flush blocks of the `tool_use_start` and `done` cases, read at the
current buffer value. In the executed loop the condition reads the stale
closure value `""` and the flush never fires (see `applyEventJs`). -/
def flushStreamingText (s : AppState) : AppState :=
  if s.streamingText = "" then s
  else { s with
    messages := s.messages ++ [⟨MsgType.assistant, s.streamingText, none⟩],
    streamingText := "" }

/-- One step of the `handleSubmit` event loop of `src/components/App.tsx`
(the `switch (event.type)` body) under the idealized reducer reading:
every read of `streamingText` sees the current buffer value. The executed
loop instead reads the stale closure value `""` — see `applyEventJs`. The
two transitions differ only in the `text` case and in the
`flushStreamingText` calls of the `tool_use_start` and `done` cases; they
agree on every case that does not read `streamingText` (`init`,
`text_delta`, `tool_input_delta`, `tool_result`, `error`). -/
def applyEvent (s : AppState) (e : HatchEvent) : AppState :=
  match e with
  | .init sid => { s with sessionId := sid }
  | .text_delta t =>
      if jsStr t = "" then s
      else { s with streamingText := s.streamingText ++ jsStr t }
  | .text t =>
      if s.streamingText = "" ∧ jsStr t = "" then s
      else
        let finalText := if jsStr t = "" then s.streamingText else jsStr t
        { s with
          messages := s.messages ++ [⟨MsgType.assistant, finalText, none⟩],
          streamingText := "" }
  | .tool_use_start name _tid inp =>
      let s1 := flushStreamingText s
      let s2 := { s1 with
        currentTool := if jsStr name = "" then none else some (jsStr name),
        toolInput := "" }
      match inp with
      | some input =>
          -- the source reads `event.toolName!` here (non-null assertion)
          let display := formatToolDisplay (jsStr name) input
          let content :=
            if display.detail = "" then display.label
            else display.label ++ ": " ++ display.detail
          { s2 with
            messages := s2.messages ++ [⟨MsgType.tool_use, content, name⟩],
            currentTool := none }
      | none => s2
  | .tool_input_delta d =>
      if jsStr d = "" then s
      else { s with toolInput := s.toolInput ++ jsStr d }
  | .tool_result r =>
      let s1 := { s with currentTool := none, toolInput := "" }
      if jsStr r = "" then s1
      else { s1 with
        messages := s1.messages ++ [⟨MsgType.tool_result, truncate (jsStr r) 800, none⟩] }
  | .error err =>
      -- the source reads `event.error!` (non-null assertion)
      { s with messages := s.messages ++ [⟨MsgType.error, jsStr err, none⟩] }
  | .done sid =>
      let s1 := flushStreamingText s
      if jsStr sid = "" then s1 else { s1 with sessionId := sid }

/-- Fold the reducer over a list of events in arrival order. -/
def processEvents (s : AppState) (evs : List HatchEvent) : AppState :=
  evs.foldl applyEvent s

/-- The unconditional buffer clears after the event loop of
`handleSubmit` (the end of every exchange, reached as soon as the event
stream is exhausted). -/
def finishExchange (s : AppState) : AppState :=
  { s with streamingText := "", currentTool := none, toolInput := "" }

/-- One step of the `handleSubmit` event loop as the source actually
executes it: every read of the `streamingText` closure const sees the
stale render-time value `""` (always `""` at loop entry — the
`isProcessing` guard at App.tsx:80 blocks submissions mid-exchange and
lines 190-193 clear the buffer before `isProcessing` is reset), while the
functional `setStreamingText` updates still accumulate in the state.
Consequently in the `text` case `if (streamingText || event.text)`
collapses to `if (event.text)` and `event.text || streamingText` to
`event.text`, and the `if (streamingText)` flush blocks of the
`tool_use_start` and `done` cases never fire. -/
def applyEventJs (s : AppState) (e : HatchEvent) : AppState :=
  match e with
  | .init sid => { s with sessionId := sid }
  | .text_delta t =>
      if jsStr t = "" then s
      else { s with streamingText := s.streamingText ++ jsStr t }
  | .text t =>
      if jsStr t = "" then s
      else { s with
        messages := s.messages ++ [⟨MsgType.assistant, jsStr t, none⟩],
        streamingText := "" }
  | .tool_use_start name _tid inp =>
      let s2 := { s with
        currentTool := if jsStr name = "" then none else some (jsStr name),
        toolInput := "" }
      match inp with
      | some input =>
          -- the source reads `event.toolName!` here (non-null assertion)
          let display := formatToolDisplay (jsStr name) input
          let content :=
            if display.detail = "" then display.label
            else display.label ++ ": " ++ display.detail
          { s2 with
            messages := s2.messages ++ [⟨MsgType.tool_use, content, name⟩],
            currentTool := none }
      | none => s2
  | .tool_input_delta d =>
      if jsStr d = "" then s
      else { s with toolInput := s.toolInput ++ jsStr d }
  | .tool_result r =>
      let s1 := { s with currentTool := none, toolInput := "" }
      if jsStr r = "" then s1
      else { s1 with
        messages := s1.messages ++ [⟨MsgType.tool_result, truncate (jsStr r) 800, none⟩] }
  | .error err =>
      -- the source reads `event.error!` (non-null assertion)
      { s with messages := s.messages ++ [⟨MsgType.error, jsStr err, none⟩] }
  | .done sid =>
      if jsStr sid = "" then s else { s with sessionId := sid }

/-- Fold the executed-loop transition over a list of events in arrival
order. -/
def processEventsJs (s : AppState) (evs : List HatchEvent) : AppState :=
  evs.foldl applyEventJs s

/-! ### The Event Source: `runHatch` from `src/agent/hatch.ts`

`runHatch` iterates the SDK's message stream and forwards each message as
zero or more `HatchEvent`s. The SDK stream is external and is modelled as
the finite list of messages it delivered before either ending normally or
raising an exception (`Option String`: `some msg` when iteration raised
`msg` after the listed messages, `none` when it completed). -/

/-- One streaming event inside an SDK `stream_event` message (only the
shapes `runHatch` inspects are distinguished; everything else is
`other_stream`). -/
inductive SdkStreamEvent where
  | content_block_start_tool_use (name id : String)
  | content_block_delta_text (t : String)
  | content_block_delta_input_json (pj : String)
  | other_stream
deriving DecidableEq, Repr

/-- One piece of an SDK assistant message's `content` array. -/
inductive SdkAssistantPiece where
  | text (t : String)
  | tool_use (name id : String) (input : ToolInput)
  | other_piece
deriving DecidableEq, Repr

/-- One inner element of an array-shaped tool-result `content`. -/
inductive SdkInnerPiece where
  | text (t : String)
  | other_inner
deriving DecidableEq, Repr

/-- The `content` of an SDK `tool_result` piece: an array of inner
pieces, a plain string, or some other value. -/
inductive SdkToolResultContent where
  | arr (inners : List SdkInnerPiece)
  | str (s : String)
  | other_content
deriving DecidableEq, Repr

/-- One piece of an SDK user message's `content` array. -/
inductive SdkUserPiece where
  | tool_result (content : SdkToolResultContent)
  | other_user
deriving DecidableEq, Repr

/-- One message of the SDK stream iterated by `runHatch`. -/
inductive SdkMessage where
  | system (subtype : String) (session_id : String)
  | stream_event (e : SdkStreamEvent)
  | assistant (content : List SdkAssistantPiece)
  | user (content : List SdkUserPiece)
  | result
deriving DecidableEq, Repr

/-- The `resultText` accumulation of the `user` case: concatenate the
`text` inners of an array, take a plain string as-is, else `""`. -/
def sdkResultText : SdkToolResultContent → String
  | .arr inners =>
      inners.foldl (fun acc p => match p with
        | .text t => acc ++ t
        | .other_inner => acc) ""
  | .str s => s
  | .other_content => ""

/-- The events `runHatch` yields for one SDK message, together with the
updated `currentSessionId` (only a `system`/`init` message changes it). -/
def sdkStep (sid : Option String) : SdkMessage → Option String × List HatchEvent
  | .system st s_id =>
      if st = "init" then (some s_id, [.init (some s_id)]) else (sid, [])
  | .stream_event e =>
      match e with
      | .content_block_start_tool_use name id =>
          (sid, [.tool_use_start (some name) (some id) none])
      | .content_block_delta_text t => (sid, [.text_delta (some t)])
      | .content_block_delta_input_json pj => (sid, [.tool_input_delta (some pj)])
      | .other_stream => (sid, [])
  | .assistant content =>
      (sid, content.flatMap (fun p => match p with
        | .text t => [.text (some t)]
        | .tool_use name id input => [.tool_use_start (some name) (some id) (some input)]
        | .other_piece => []))
  | .user content =>
      (sid, content.flatMap (fun p => match p with
        | .tool_result c => [.tool_result (some (sdkResultText c))]
        | .other_user => []))
  | .result => (sid, [])

/-- The events yielded by the `for await` loop of `runHatch` over the
delivered SDK messages, threading `currentSessionId`, together with its
final value. -/
def sdkLoop (sid : Option String) : List SdkMessage → Option String × List HatchEvent
  | [] => (sid, [])
  | it :: rest =>
      let step := sdkStep sid it
      let tail := sdkLoop step.1 rest
      (tail.1, step.2 ++ tail.2)

/-- The full event sequence produced by `runHatch prompt sessionId` when
the SDK stream delivers `items` and then either raises (`exn = some msg`,
caught by the surrounding `try`, which yields one `error` event) or ends
normally (after which `runHatch` yields one `done` event carrying the
current session id). -/
def runHatch (sessionId : Option String) (items : List SdkMessage)
    (exn : Option String) : List HatchEvent :=
  let loop := sdkLoop sessionId items
  match exn with
  | some msg => loop.2 ++ [.error (some msg)]
  | none => loop.2 ++ [.done loop.1]

/-- Terminal events of the protocol: `done` (session-ended) and `error`
(failure). -/
def HatchEvent.isTerminal : HatchEvent → Bool
  | .done _ => true
  | .error _ => true
  | _ => false

/-! ### Concrete scenario data -/

/-- Concatenation of text fragments in arrival order. -/
def concatAll (l : List String) : String := l.foldr (fun a b => a ++ b) ""

/-- Scenario events: a tool call with deferred input
(`tool-call-started(name="bash", id=t1)`, two `tool-input-delta`s carrying
the two halves of the JSON input, then `tool-result("file1\nfile2")`). -/
def c1events : List HatchEvent :=
  [ .tool_use_start (some "bash") (some "t1") none,
    .tool_input_delta (some "\x7b\"comma"),
    .tool_input_delta (some "nd\":\"ls\"\x7d"),
    .tool_result (some "file1\nfile2") ]

/-- Scenario events: a plain streamed response
(`session-started(s1)`, two text deltas, `text-complete()`,
`session-ended(s1)`). -/
def c2events : List HatchEvent :=
  [ .init (some "s1"), .text_delta (some "Hello"), .text_delta (some " world"),
    .text none, .done (some "s1") ]

/-- A state with one finalized entry, no open tool call and empty buffers. -/
def c4state : AppState :=
  { messages := [⟨MsgType.assistant, "hi", none⟩], sessionId := none,
    streamingText := "", currentTool := none, toolInput := "" }

/-- A state in the streaming-text sub-state (non-empty text buffer). -/
def c8state : AppState := { initialState with streamingText := "abc" }

/-- A 1000-character tool-result payload. -/
def thousandChars : String := String.mk (List.replicate 1000 'a')

/-- The lower-cased tool names with a dedicated branch in
`formatToolDisplay`. -/
def knownToolNames : List String :=
  ["bash", "write", "edit", "multiedit", "read", "glob", "grep", "ls",
   "websearch", "webfetch", "todowrite", "todoread", "task"]

/-! ### Basic lemmas about the string model and the reducer -/

@[simp] theorem jsStr_some (s : String) : jsStr (some s) = s := rfl

@[simp] theorem jsStr_none : jsStr none = "" := rfl

theorem strData_append (a b : String) : (a ++ b).data = a.data ++ b.data := rfl

theorem strLength_data (s : String) : s.length = s.data.length := rfl

theorem strLength_append (a b : String) : (a ++ b).length = a.length + b.length :=
  List.length_append a.data b.data

theorem strSlice0_length (s : String) (n : Nat) (h : n ≤ s.length) :
    (strSlice0 s n).length = n := by
  show (s.data.take n).length = n
  rw [List.length_take]
  exact Nat.min_eq_left h

/-- A transcript can only grow under `flushStreamingText`. -/
theorem flush_extends (s : AppState) :
    ∃ t, (flushStreamingText s).messages = s.messages ++ t := by
  unfold flushStreamingText
  split_ifs
  · exact ⟨[], by simp⟩
  · exact ⟨[⟨MsgType.assistant, s.streamingText, none⟩], rfl⟩

/-- Folding the executed loop over `text-delta` events only appends the
(present, non-empty) fragments to the streaming-text buffer; no
transcript entry is produced. -/
theorem processEventsJs_text_deltas (frags : List String) (s : AppState) :
    processEventsJs s (frags.map fun f => HatchEvent.text_delta (some f)) =
      { s with streamingText := s.streamingText ++ concatAll frags } := by
  induction frags generalizing s with
  | nil => simp [processEventsJs, concatAll, String.append_empty]
  | cons f fs ih =>
      have hstep : processEventsJs s ((f :: fs).map fun f => HatchEvent.text_delta (some f)) =
          processEventsJs (applyEventJs s (.text_delta (some f)))
            (fs.map fun f => HatchEvent.text_delta (some f)) := rfl
      rw [hstep, ih]
      by_cases hf : f = ""
      · subst hf
        simp [applyEventJs, concatAll, String.empty_append]
      · simp [applyEventJs, hf, concatAll, String.append_assoc]

/-! ### Claim theorems -/

/-- C6: a tool-result text longer than 800 units is stored as its first
800 units followed by the fixed truncation marker (so the stored entry is
exactly 800 characters plus the marker); text of 800 units or fewer is
stored unchanged. -/
theorem tool_result_truncation (s : String) (h : 800 < s.length) :
    truncate s 800 = strSlice0 s 800 ++ truncMarker ∧
    (strSlice0 s 800).length = 800 ∧
    (truncate s 800).length = 800 + truncMarker.length ∧
    ∀ t : String, t.length ≤ 800 → truncate t 800 = t := by
  have hslice : (strSlice0 s 800).length = 800 := strSlice0_length s 800 (Nat.le_of_lt h)
  have heq : truncate s 800 = strSlice0 s 800 ++ truncMarker := by
    rw [truncate, if_neg (by omega)]
  refine ⟨heq, hslice, ?_, ?_⟩
  · rw [heq, strLength_append, hslice]
  · intro t ht
    rw [truncate, if_pos ht]

/-- Witness for C6 at a concrete 1000-character result text. -/
theorem tool_result_truncation_witness :
    800 < thousandChars.length ∧
    (truncate thousandChars 800 = strSlice0 thousandChars 800 ++ truncMarker ∧
      (strSlice0 thousandChars 800).length = 800 ∧
      (truncate thousandChars 800).length = 800 + truncMarker.length ∧
      ∀ t : String, t.length ≤ 800 → truncate t 800 = t) := by
  have h : 800 < thousandChars.length := by
    show 800 < (List.replicate 1000 'a').length
    rw [List.length_replicate]
    omega
  exact ⟨h, tool_result_truncation thousandChars h⟩

/-- C7: the truncation policy at threshold 800 is idempotent:
`truncate (truncate s 800) 800 = truncate s 800` for every string. -/
theorem truncate_idempotent (s : String) :
    truncate (truncate s 800) 800 = truncate s 800 := by
  by_cases h : s.length ≤ 800
  · have ht : truncate s 800 = s := by rw [truncate, if_pos h]
    rw [ht]
    exact ht
  · have hslice : (strSlice0 s 800).length = 800 :=
      strSlice0_length s 800 (by omega)
    have h1 : truncate s 800 = strSlice0 s 800 ++ truncMarker := by
      rw [truncate, if_neg h]
    have hlen : (truncate s 800).length = 800 + truncMarker.length := by
      rw [h1, strLength_append, hslice]
    have hm : truncMarker.length = 16 := rfl
    rw [h1]
    rw [truncate, if_neg (by rw [← h1, hlen, hm]; omega)]
    congr 1
    have hdata : (strSlice0 s 800).data.length = 800 := hslice
    show String.mk (((strSlice0 s 800).data ++ truncMarker.data).take 800) = strSlice0 s 800
    rw [List.take_left' hdata]

/-- Counterexample to C1: in the deferred-input scenario
`[tool-call-started("bash", t1, no input), tool-input-delta, tool-input-delta,
tool-result("file1\nfile2")]` the reducer appends only the tool-result
entry — no tool-call entry derived from the accumulated input buffer is
ever appended (the buffer is discarded). -/
theorem tool_result_no_tool_entry_cex :
    (processEvents initialState c1events).messages =
      [⟨MsgType.tool_result, "file1\nfile2", none⟩] ∧
    (∀ m ∈ (processEvents initialState c1events).messages,
      m.type ≠ MsgType.tool_use) ∧
    (processEvents initialState c1events).toolInput = "" := by
  decide

/-- C1 (amended): applying a `tool-result` event discards any open
tool-call input buffer (clears it and the current tool without appending
a tool-call entry) and appends a single tool-result entry with the
truncated result text. -/
theorem tool_result_discards_buffer (s : AppState) (r : String) (hr : r ≠ "") :
    applyEvent s (.tool_result (some r)) =
      { s with currentTool := none, toolInput := "",
               messages := s.messages ++
                 [⟨MsgType.tool_result, truncate r 800, none⟩] } := by
  simp [applyEvent, hr]

/-- Witness for the amended C1 at a concrete result text. -/
theorem tool_result_discards_buffer_witness :
    ("file1\nfile2" : String) ≠ "" ∧
    applyEvent initialState (.tool_result (some "file1\nfile2")) =
      { initialState with
        currentTool := none, toolInput := "",
        messages := initialState.messages ++
          [⟨MsgType.tool_result, truncate "file1\nfile2" 800, none⟩] } :=
  ⟨by decide, tool_result_discards_buffer initialState "file1\nfile2" (by decide)⟩

/-- C2 (code bug): the executed loop never finalizes the accumulated
delta buffer on a `text-complete` without `fullText` — the stale closure
read makes `if (streamingText || event.text)` false there — so after any
sequence of `text-delta` events a `text` event with no payload appends
nothing, and the plain-response scenario `[session-started(s1),
text-delta("Hello"), text-delta(" world"), text-complete(),
session-ended(s1)]` yields an empty transcript (final session id `s1`):
the fragments accumulate in the transient buffer (`"Hello world"`) and
are then discarded by the post-loop clears, contradicting the source's
own `flush streaming buffer` comments and the spec's scenario. -/
theorem text_deltas_never_finalized (s : AppState) (frags : List String) :
    (applyEventJs (processEventsJs s (frags.map fun f => HatchEvent.text_delta (some f)))
        (HatchEvent.text none)).messages = s.messages ∧
    ((processEventsJs initialState c2events).messages = [] ∧
      (processEventsJs initialState c2events).sessionId = some "s1" ∧
      (processEventsJs initialState c2events).streamingText = "Hello world" ∧
      (finishExchange (processEventsJs initialState c2events)).messages = []) := by
  refine ⟨?_, by decide, by decide, by decide, by decide⟩
  rw [processEventsJs_text_deltas]
  simp [applyEventJs]

/-- C3: from a state with a non-empty in-progress text buffer, a
`failure` event (the `error` case of the loop, followed by the
unconditional buffer clears that run when the stream terminates — and a
failure is terminal, see `runHatch_terminal`) appends exactly one error
entry carrying the message, leaves every previously finalized entry
unchanged, and discards the partial text buffer without flushing it as an
assistant entry. -/
theorem failure_discards_partial_text (s : AppState) (msg : String)
    (hbuf : s.streamingText ≠ "") :
    finishExchange (applyEvent s (.error (some msg))) =
      { s with
        messages := s.messages ++ [⟨MsgType.error, msg, none⟩],
        streamingText := "", currentTool := none, toolInput := "" } := by
  simp [applyEvent, finishExchange]

/-- Witness for C3 at the failure-mid-stream scenario state. -/
theorem failure_discards_partial_text_witness :
    ({ initialState with streamingText := "partial" } : AppState).streamingText ≠ "" ∧
    finishExchange (applyEvent { initialState with streamingText := "partial" }
        (.error (some "network down"))) =
      { ({ initialState with streamingText := "partial" } : AppState) with
        messages := ({ initialState with streamingText := "partial" } : AppState).messages ++
          [⟨MsgType.error, "network down", none⟩],
        streamingText := "", currentTool := none, toolInput := "" } :=
  ⟨by decide,
    failure_discards_partial_text { initialState with streamingText := "partial" }
      "network down" (by decide)⟩

/-- Counterexample to C4: in a state with no open tool call
(`currentTool = none`), a `tool-input-delta` event does change buffer
content — the fragment is appended to the (inactive) tool-input buffer,
so the state is not left unchanged up to a diagnostic counter. -/
theorem tool_input_delta_mutates_cex :
    c4state.currentTool = none ∧
    applyEvent c4state (.tool_input_delta (some "xy")) ≠ c4state ∧
    (applyEvent c4state (.tool_input_delta (some "xy"))).toolInput = "xy" ∧
    c4state.toolInput = "" ∧
    (applyEvent c4state (.tool_input_delta (some "xy"))).messages = c4state.messages := by
  decide

/-- C4 (amended): a `tool-input-delta` with no open tool-call buffer does
not raise and appends no transcript entry; its only effect is to append
the fragment to the (inactive, never-displayed) tool-input buffer. -/
theorem tool_input_delta_no_entry (s : AppState) (d : Option String)
    (h : s.currentTool = none) :
    applyEvent s (.tool_input_delta d) =
      { s with toolInput := s.toolInput ++ jsStr d } := by
  cases d with
  | none => simp [applyEvent, String.append_empty]
  | some f =>
      by_cases hf : f = ""
      · subst hf
        simp [applyEvent, String.append_empty]
      · simp [applyEvent, hf]

/-- Witness for the amended C4 at a concrete state and fragment. -/
theorem tool_input_delta_no_entry_witness :
    c4state.currentTool = none ∧
    applyEvent c4state (.tool_input_delta (some "xy")) =
      { c4state with toolInput := c4state.toolInput ++ jsStr (some "xy") } :=
  ⟨rfl, tool_input_delta_no_entry c4state (some "xy") rfl⟩

/-- C5: the transcript is append-only — applying any event to any reducer
state leaves every previously appended entry (content, kind, position)
unchanged and only ever appends new entries at the end. -/
theorem transcript_append_only (s : AppState) (e : HatchEvent) :
    ∃ t, (applyEvent s e).messages = s.messages ++ t := by
  cases e with
  | init sid => exact ⟨[], by simp [applyEvent]⟩
  | text_delta t =>
      refine ⟨[], ?_⟩
      simp only [applyEvent]
      split_ifs <;> simp
  | text t =>
      simp only [applyEvent]
      split_ifs
      · exact ⟨[], by simp⟩
      · exact ⟨[⟨MsgType.assistant, s.streamingText, none⟩], rfl⟩
      · exact ⟨[⟨MsgType.assistant, jsStr t, none⟩], rfl⟩
  | tool_use_start name tid inp =>
      cases inp with
      | none =>
          obtain ⟨t1, h1⟩ := flush_extends s
          exact ⟨t1, h1⟩
      | some input =>
          obtain ⟨t1, h1⟩ := flush_extends s
          refine ⟨t1 ++ [⟨MsgType.tool_use,
            (if (formatToolDisplay (jsStr name) input).detail = ""
              then (formatToolDisplay (jsStr name) input).label
              else (formatToolDisplay (jsStr name) input).label ++ ": " ++
                (formatToolDisplay (jsStr name) input).detail), name⟩], ?_⟩
          show (flushStreamingText s).messages ++ _ = _
          rw [h1, List.append_assoc]
  | tool_input_delta d =>
      refine ⟨[], ?_⟩
      simp only [applyEvent]
      split_ifs <;> simp
  | tool_result r =>
      simp only [applyEvent]
      split_ifs
      · exact ⟨[], by simp⟩
      · exact ⟨[⟨MsgType.tool_result, truncate (jsStr r) 800, none⟩], rfl⟩
  | error err => exact ⟨[⟨MsgType.error, jsStr err, none⟩], rfl⟩
  | done sid =>
      obtain ⟨t1, h1⟩ := flush_extends s
      simp only [applyEvent]
      split_ifs <;> exact ⟨t1, h1⟩

/-- Counterexample to C8: with a non-empty streaming buffer `"abc"`, a
`text-complete` with absent `fullText` (and likewise with a present but
empty payload) appends no assistant entry at all and leaves the state —
including the uncleaned buffer — unchanged: the stale closure read makes
`if (streamingText || event.text)` false, so the buffer is neither
finalized as-is nor cleared by the event. -/
theorem text_complete_no_flush_cex :
    c8state.streamingText = "abc" ∧
    applyEventJs c8state (.text none) = c8state ∧
    (applyEventJs c8state (.text none)).messages = [] ∧
    applyEventJs c8state (.text (some "")) = c8state ∧
    (applyEventJs c8state (.text none)).streamingText ≠ "" := by
  decide

/-- C8 (amended): in the streaming-text sub-state, a `text-complete`
finalizes an assistant entry whose content is the `fullText` payload —
and clears the buffer — exactly when the payload is present and
non-empty; when `fullText` is absent (or present but empty, which JS
truthiness conflates with absent), the event appends no entry and leaves
the state unchanged: the accumulated delta buffer is never finalized by
the executed loop and is discarded when the exchange ends. -/
theorem text_complete_fulltext_only (s : AppState) (hbuf : s.streamingText ≠ "") :
    (∀ ft : String, ft ≠ "" →
      applyEventJs s (.text (some ft)) =
        { s with streamingText := "",
                 messages := s.messages ++ [⟨MsgType.assistant, ft, none⟩] }) ∧
    applyEventJs s (.text none) = s ∧
    applyEventJs s (.text (some "")) = s := by
  refine ⟨?_, ?_, ?_⟩
  · intro ft hft
    simp [applyEventJs, hft]
  · simp [applyEventJs]
  · simp [applyEventJs]

/-- Witness for the amended C8 at the concrete streaming state. -/
theorem text_complete_fulltext_only_witness :
    c8state.streamingText ≠ "" ∧
    applyEventJs c8state (.text (some "full")) =
      { c8state with
        streamingText := "",
        messages := c8state.messages ++ [⟨MsgType.assistant, "full", none⟩] } ∧
    applyEventJs c8state (.text none) = c8state :=
  ⟨by decide,
    (text_complete_fulltext_only c8state (by decide)).1 "full" (by decide),
    (text_complete_fulltext_only c8state (by decide)).2.1⟩

/-- No event forwarded for a single SDK message is terminal. -/
theorem sdkStep_no_terminal (sid : Option String) (it : SdkMessage) :
    ∀ e ∈ (sdkStep sid it).2, e.isTerminal = false := by
  intro e he
  cases it with
  | system st s_id =>
      simp only [sdkStep] at he
      split_ifs at he <;> simp at he
      subst he
      rfl
  | stream_event ev =>
      cases ev <;> simp [sdkStep] at he <;> subst he <;> rfl
  | assistant content =>
      simp only [sdkStep, List.mem_flatMap] at he
      obtain ⟨p, _, hp⟩ := he
      cases p <;> simp at hp
      · subst hp; rfl
      · subst hp; rfl
  | user content =>
      simp only [sdkStep, List.mem_flatMap] at he
      obtain ⟨p, _, hp⟩ := he
      cases p <;> simp at hp
      subst hp; rfl
  | result => simp [sdkStep] at he

/-- No event forwarded by the SDK loop is terminal. -/
theorem sdkLoop_no_terminal (sid : Option String) (items : List SdkMessage) :
    ∀ e ∈ (sdkLoop sid items).2, e.isTerminal = false := by
  induction items generalizing sid with
  | nil => intro e he; simp [sdkLoop] at he
  | cons it rest ih =>
      intro e he
      simp only [sdkLoop, List.mem_append] at he
      rcases he with he | he
      · exact sdkStep_no_terminal sid it e he
      · exact ih _ e he

/-- C9: for every SDK stream (any finite list of delivered messages,
optionally ended by a raised transport error), the event sequence
produced by `runHatch` is a finite, non-empty list whose last event is
its only terminal event (`done` on normal end, `error` on a raise); in
particular no event follows a `failure`. -/
theorem runHatch_single_terminal (sid : Option String) (items : List SdkMessage)
    (exn : Option String) :
    runHatch sid items exn ≠ [] ∧
    (∃ t, (runHatch sid items exn).getLast? = some t ∧ t.isTerminal = true) ∧
    (∀ e ∈ (runHatch sid items exn).dropLast, e.isTerminal = false) ∧
    (exn = none → (runHatch sid items exn).getLast? =
      some (.done (sdkLoop sid items).1)) ∧
    (∀ msg, exn = some msg → (runHatch sid items exn).getLast? =
      some (.error (some msg))) := by
  have hloop := sdkLoop_no_terminal sid items
  cases exn with
  | none =>
      refine ⟨by simp [runHatch], ⟨.done (sdkLoop sid items).1, ?_, rfl⟩, ?_, ?_, ?_⟩
      · simp [runHatch, List.getLast?_concat]
      · intro e he
        rw [show runHatch sid items none =
            (sdkLoop sid items).2 ++ [.done (sdkLoop sid items).1] from rfl,
          List.dropLast_concat] at he
        exact hloop e he
      · intro _
        simp [runHatch, List.getLast?_concat]
      · intro msg hmsg
        exact absurd hmsg (by simp)
  | some m =>
      refine ⟨by simp [runHatch], ⟨.error (some m), ?_, rfl⟩, ?_, ?_, ?_⟩
      · simp [runHatch, List.getLast?_concat]
      · intro e he
        rw [show runHatch sid items (some m) =
            (sdkLoop sid items).2 ++ [.error (some m)] from rfl,
          List.dropLast_concat] at he
        exact hloop e he
      · intro h
        exact absurd h (by simp)
      · intro msg hmsg
        have : msg = m := by injection hmsg with h; exact h.symm
        subst this
        simp [runHatch, List.getLast?_concat]

/-- Counterexample to C10: for the unknown tool name `"frobnicate"`, the
label is just `"⚙️ frobnicate"` with an empty detail — it contains no
pretty-printed representation of the input; indeed two different inputs
produce the identical display record. -/
theorem unknown_tool_no_input_cex :
    formatToolDisplay "frobnicate" { command := some "ls" } =
      ⟨"⚙️ frobnicate", ""⟩ ∧
    formatToolDisplay "frobnicate" { command := some "rm -rf /tmp/x" } =
      ⟨"⚙️ frobnicate", ""⟩ ∧
    ({ command := some "ls" } : ToolInput) ≠ { command := some "rm -rf /tmp/x" } := by
  decide

/-- C10 (amended): for every tool name whose lower-casing is outside the
known display mapping, `formatToolDisplay` returns without erroring the
generic label `"⚙️ " ++ name` with empty detail (the tool name, but no
representation of the input, which the result does not depend on); for
known tool names the dispatch is case-insensitive, e.g. `"BASH"` renders
its command string and `"Write"` renders the target filename. -/
theorem unknown_tool_generic_label (name : String) (input : ToolInput)
    (h : strToLower name ∉ knownToolNames) :
    formatToolDisplay name input = ⟨"⚙️ " ++ name, ""⟩ ∧
    (∀ i2 : ToolInput, formatToolDisplay name i2 = formatToolDisplay name input) ∧
    formatToolDisplay "BASH" { command := some "ls -la" } = ⟨"⚡ Running", "ls -la"⟩ ∧
    formatToolDisplay "Write" { file_path := some "/a/b/c.py" } =
      ⟨"✏️ Creating file", "c.py"⟩ := by
  simp only [knownToolNames, List.mem_cons, List.not_mem_nil, or_false, not_or] at h
  obtain ⟨h1, h2, h3, h4, h5, h6, h7, h8, h9, h10, h11, h12, h13⟩ := h
  refine ⟨?_, ?_, by decide, by decide⟩
  · simp [formatToolDisplay, h1, h2, h3, h4, h5, h6, h7, h8, h9, h10, h11, h12, h13]
  · intro i2
    simp [formatToolDisplay, h1, h2, h3, h4, h5, h6, h7, h8, h9, h10, h11, h12, h13]

/-- Witness for the amended C10 at the concrete unknown name
`"frobnicate"`. -/
theorem unknown_tool_generic_label_witness :
    strToLower "frobnicate" ∉ knownToolNames ∧
    (formatToolDisplay "frobnicate" { command := some "pwd" } =
        ⟨"⚙️ frobnicate", ""⟩ ∧
      (∀ i2 : ToolInput, formatToolDisplay "frobnicate" i2 =
        formatToolDisplay "frobnicate" { command := some "pwd" }) ∧
      formatToolDisplay "BASH" { command := some "ls -la" } = ⟨"⚡ Running", "ls -la"⟩ ∧
      formatToolDisplay "Write" { file_path := some "/a/b/c.py" } =
        ⟨"✏️ Creating file", "c.py"⟩) :=
  ⟨by decide, unknown_tool_generic_label "frobnicate" { command := some "pwd" } (by decide)⟩
